import Mathlib

/-!
A shallow embedding of the Fibonacci calculator service: the API gateway's
`POST /values` handler (server/index.js) and the compute worker's `fib`
function and subscription handler (the unnamed worker file).

Numbers are modelled exactly: parsed integers become `Int`, and `parseFloat`
results become `Option ℚ` where the rational is the IEEE binary64 value of
the literal — the exact value of the decimal text rounded to the nearest
double (round half to even, with subnormal quantisation and overflow), since
every finite double is a rational.  `none` stands for `NaN`, and also for an
`Infinity` result: in the one place the handler consults `parseFloat` (the
strict-equality integer check) both `NaN` and `Infinity` compare unequal to
the small parsed integer, so the collapse is behaviour-preserving.
JavaScript's whitespace trimming is modelled by `Char.isWhitespace` (ASCII
whitespace), narrower than the full Unicode set; no claim turns on exotic
whitespace.
-/

namespace FibService

/-- The value found at `req.body.index` after JSON body parsing: absent
(`undefined`), `null`, a string, or a number (restricted to the integral
JSON numbers; fractional numeric inputs are exercised through their string
forms such as `"3.5"`). -/
inductive JSVal where
  | undef
  | jsNull
  | str (s : String)
  | num (n : Int)
  deriving DecidableEq

/-- Numeric value of a decimal digit character. -/
def digitVal (c : Char) : Nat := c.toNat - Char.toNat '0'

/-- Value of a list of decimal digit characters, most significant first. -/
def digitsToNat (ds : List Char) : Nat :=
  ds.foldl (fun acc c => acc * 10 + digitVal c) 0

/-- Consume an optional leading sign, returning the sign as `1` or `-1`
together with the remaining characters. -/
def splitSign : List Char → Int × List Char
  | '-' :: rest => (-1, rest)
  | '+' :: rest => (1, rest)
  | cs => (1, cs)

/-- JavaScript `parseInt(s, 10)`: skip leading whitespace, read an optional
sign, then the longest prefix of decimal digits; `NaN` (here `none`) when
that prefix is empty. -/
def parseIntJS (s : String) : Option Int :=
  let cs := s.data.dropWhile Char.isWhitespace
  let p := splitSign cs
  let ds := p.2.takeWhile Char.isDigit
  if ds.isEmpty then none
  else some (p.1 * (digitsToNat ds : Int))

/-- The exact, unrounded rational value of the decimal literal at the head
of `s`, on JavaScript's `parseFloat` grammar: whitespace, optional sign,
integer digits, optional `.` plus fraction digits, optional exponent part;
`none` when no literal is present (`NaN`).  The longest valid prefix is
parsed; an `e` not followed by digits is not an exponent part.  The value
`sign * (ip + fp / 10 ^ |fp|) * 10 ^ exp` is assembled as one exact quotient
of integers.  This is the "unrounded numeric interpretation" the spec's
section 4.1 rule 5 speaks of; the program's `parseFloat` returns it rounded
to binary64, which `parseFloatJS` below performs. -/
def parseFloatExact (s : String) : Option ℚ :=
  let cs := s.data.dropWhile Char.isWhitespace
  let p := splitSign cs
  let ip := p.2.takeWhile Char.isDigit
  let r1 := p.2.dropWhile Char.isDigit
  let fr :=
    match r1 with
    | '.' :: rest => (rest.takeWhile Char.isDigit, rest.dropWhile Char.isDigit)
    | _ => ([], r1)
  if ip.isEmpty && fr.1.isEmpty then none
  else
    let m : Int := p.1 * (digitsToNat ip * 10 ^ fr.1.length + digitsToNat fr.1)
    let eRaw : Int :=
      match fr.2 with
      | c :: rest =>
          if c = 'e' || c = 'E' then
            let q := splitSign rest
            let eds := q.2.takeWhile Char.isDigit
            if eds.isEmpty then 0 else q.1 * (digitsToNat eds : Int)
          else 0
      | [] => 0
    let e : Int := eRaw - fr.1.length
    if 0 ≤ e then some (Rat.divInt (m * 10 ^ e.toNat) 1)
    else some (Rat.divInt m (10 ^ (-e).toNat))

/-- Number of binary digits of `n`, by fuelled halving (the fuel `n` always
suffices since the recursion depth is `log2 n + 1`). -/
def bitLenAux : Nat → Nat → Nat
  | 0, _ => 0
  | fuel + 1, n => if n = 0 then 0 else bitLenAux fuel (n / 2) + 1

/-- Number of binary digits of a natural number (`0` for `0`). -/
def bitLen (n : Nat) : Nat := bitLenAux n n

/-- `2 ^ e ≤ p / q` for positive naturals `p, q` and an integer exponent,
decided in integer arithmetic. -/
def twoPowLe (e : Int) (p q : Nat) : Bool :=
  if 0 ≤ e then q * 2 ^ e.toNat ≤ p else q ≤ p * 2 ^ (-e).toNat

/-- The binade of the positive rational `p / q`: the unique `e` with
`2 ^ e ≤ p / q < 2 ^ (e + 1)`.  Since `p < 2 ^ bitLen p ≤ 2 * p`, the
quotient lies in `(2 ^ (d - 1), 2 ^ (d + 1))` for
`d = bitLen p - bitLen q`, so `e` is `d` or `d - 1`. -/
def binade (p q : Nat) : Int :=
  let d : Int := (bitLen p : Int) - (bitLen q : Int)
  if twoPowLe d p q then d else d - 1

/-- Round the nonnegative quotient `N / D` to the nearest natural number,
ties to even. -/
def roundScaled (N D : Nat) : Nat :=
  let m := N / D
  let r := N % D
  if 2 * r < D then m
  else if D < 2 * r then m + 1
  else if m % 2 = 0 then m else m + 1

/-- Round the positive rational `p / q` to the nearest IEEE binary64 value
(round half to even): scale by `2 ^ shift` so the significand has 53 bits —
or to the fixed quantum `2 ^ -1074` in the subnormal range, where values
below half the smallest subnormal flush to `0` — round the scaled value to
an integer, and scale back; `none` is overflow to `Infinity` (magnitude
reaching `2 ^ 1024` after rounding). -/
def roundPosF64 (p q : Nat) : Option ℚ :=
  let e := binade p q
  let shift : Int := if e < -1022 then 1074 else 52 - e
  let N := if 0 ≤ shift then p * 2 ^ shift.toNat else p
  let D := if 0 ≤ shift then q else q * 2 ^ (-shift).toNat
  let m := roundScaled N D
  if 0 ≤ shift then some (Rat.divInt (m : Int) ((2 : Int) ^ shift.toNat))
  else if m * 2 ^ (-shift).toNat < 2 ^ 1024 then
    some (Rat.divInt ((m * 2 ^ (-shift).toNat : Nat) : Int) 1)
  else none

/-- Round an exact rational to the binary64 value JavaScript arithmetic
holds: `0` stays `0`, the sign is restored after rounding the magnitude,
and `none` is overflow to `Infinity`. -/
def roundF64 (x : ℚ) : Option ℚ :=
  if x.num = 0 then some 0
  else
    match roundPosF64 x.num.natAbs x.den with
    | none => none
    | some r => some (if x.num < 0 then -r else r)

/-- JavaScript `parseFloat(s)`: the exact literal value rounded to the
nearest binary64 double; `none` for `NaN` and for an infinite result (see
the file comment). -/
def parseFloatJS (s : String) : Option ℚ :=
  match parseFloatExact s with
  | none => none
  | some q => roundF64 q

/-- `parseInt(index, 10)` applied to the request field: `undefined` and
`null` stringify to non-numeric text (`NaN`); an integral number below the
`10 ^ 21` exponential-notation threshold stringifies to its plain decimal
form and parses back to itself (the modelled numeric domain, see `JSVal`). -/
def parsedIntOf : JSVal → Option Int
  | .undef => none
  | .jsNull => none
  | .str s => parseIntJS s
  | .num n => some n

/-- `parseFloat(index)` applied to the request field. -/
def parsedFloatOf : JSVal → Option ℚ
  | .undef => none
  | .jsNull => none
  | .str s => parseFloatJS s
  | .num n => some (n : ℚ)

/-- JavaScript strict equality `parsedIndex === parseFloat(index)` between
the parsed integer and the parsed float; `NaN` (`none`) is unequal to
everything. -/
def jsNumEq (n : Int) (q : Option ℚ) : Bool :=
  match q with
  | some q => decide ((n : ℚ) = q)
  | none => false

/-- The worker's `for (let i = 2; i <= index; i++)` loop: `steps` remaining
iterations, accumulators `prev` and `current`. -/
def fibLoop : Nat → Int → Int → Int
  | 0, _, current => current
  | steps + 1, prev, current => fibLoop steps current (prev + current)

/-- The worker's `fib`: `1` for `index < 2`, otherwise the iterative loop
seeded with `prev = 1, current = 1`, running `index - 1` times (`i` from `2`
to `index` inclusive). -/
def fib (index : Int) : Int :=
  if index < 2 then 1
  else fibLoop (index - 1).toNat 1 1

/-- The recurrence the spec describes in section 4.2: both seeds are `1` and
each later value is the sum of the previous two. -/
def fibRec : Nat → Int
  | 0 => 1
  | 1 => 1
  | n + 2 => fibRec n + fibRec (n + 1)

/-- The missing-input test of the handler:
`index === undefined || index === null || index === ''`. -/
def jsMissing (v : JSVal) : Bool :=
  v == JSVal.undef || v == JSVal.jsNull || v == JSVal.str ""

/-- The JSON body of an HTTP response from the `POST /values` handler:
status code, optional `error` message, and the `working`/`index` fields of
the success body. -/
structure Response where
  status : Nat
  error : Option String := none
  working : Bool := false
  index : Option Int := none
  deriving DecidableEq

/-- One store side effect the handler requests: a Result Cache write
(`redisClient.hSet`), an Event Channel publish (`redisPublisher.publish`),
or a Durable Ledger insert (the `INSERT ... ON CONFLICT DO NOTHING`
query). -/
inductive Effect where
  | cacheSet (key value : String)
  | channelPub (channel message : String)
  | ledgerInsert (number : Int)
  deriving DecidableEq

/-- The `POST /values` handler.  `storeFail = none` means all three awaited
store operations succeed; `storeFail = some i` means the `i`-th operation
throws, so only the effects before it happened and the `catch` block answers
500.  Returns the response together with the effects that took place. -/
def postValues (storeFail : Option (Fin 3)) (body : JSVal) : Response × List Effect :=
  if jsMissing body then
    ({ status := 400, error := some "Index is required" }, [])
  else
    match parsedIntOf body with
    | none => ({ status := 400, error := some "Index must be a valid number" }, [])
    | some parsedIndex =>
      if parsedIndex < 0 then
        ({ status := 400, error := some "Index must be non-negative" }, [])
      else if parsedIndex > 40 then
        ({ status := 422, error := some "Index too high (maximum: 40)" }, [])
      else if !jsNumEq parsedIndex (parsedFloatOf body) then
        ({ status := 400, error := some "Index must be an integer" }, [])
      else
        let effects := [Effect.cacheSet (toString parsedIndex) "Calculating...",
                        Effect.channelPub "insert" (toString parsedIndex),
                        Effect.ledgerInsert parsedIndex]
        match storeFail with
        | none => ({ status := 201, working := true, index := some parsedIndex }, effects)
        | some i =>
            ({ status := 500, error := some "Internal server error while processing request" },
             effects.take i.val)

/-- Redis `HSET` on the hash modelled as an association list: replace the
value at an existing field, otherwise append the new field. -/
def hset : List (String × String) → String → String → List (String × String)
  | [], k, v => [(k, v)]
  | p :: rest, k, v => if p.1 = k then (k, v) :: rest else p :: hset rest k v

/-- The three backing stores: the Result Cache hash, the published Event
Channel messages (channel, message), and the Durable Ledger rows in
insertion order. -/
structure StoreState where
  cache : List (String × String)
  published : List (String × String)
  ledger : List Int
  deriving DecidableEq

/-- Apply one store side effect.  The ledger insert is
`ON CONFLICT (number) DO NOTHING`: a duplicate value leaves the table
unchanged. -/
def applyEffect (s : StoreState) : Effect → StoreState
  | .cacheSet k v => { s with cache := hset s.cache k v }
  | .channelPub ch m => { s with published := s.published ++ [(ch, m)] }
  | .ledgerInsert n =>
      { s with ledger := if n ∈ s.ledger then s.ledger else s.ledger ++ [n] }

/-- Apply a list of effects in order. -/
def runEffects (s : StoreState) (effs : List Effect) : StoreState :=
  effs.foldl applyEffect s

/-- The body of the worker's subscription callback, up to the `try`:
parse the message, discard it (an ordinary return, not an error) when the
parse is `NaN` or the value is outside `[0, 40]`, otherwise write
`fib(index)` to the cache.  `cacheOk = false` models the `hSet` call
throwing. -/
def workerBody (cacheOk : Bool) (cache : List (String × String)) (message : String) :
    Except String (List (String × String)) :=
  match parseIntJS message with
  | none => Except.ok cache
  | some index =>
      if index < 0 || index > 40 then Except.ok cache
      else if cacheOk then
        Except.ok (hset cache (toString index) (toString (fib index)))
      else Except.error "Error processing message"

/-- The worker's subscription callback with its `catch`: any thrown error is
swallowed (logged) and the cache is left as it was. -/
def workerHandle (cacheOk : Bool) (cache : List (String × String)) (message : String) :
    List (String × String) :=
  match workerBody cacheOk cache message with
  | Except.ok c => c
  | Except.error _ => cache

/-- The long-lived subscription loop: messages are handled one at a time, in
order, each through `workerHandle`. -/
def workerProcess (cacheOk : Bool) (cache : List (String × String)) (msgs : List String) :
    List (String × String) :=
  msgs.foldl (workerHandle cacheOk) cache

/-- The placeholder string the gateway writes at submission time. -/
def sentinel : String := "Calculating..."

/-- The invariant of claim C10: every cache entry holds either the
placeholder sentinel or the decimal rendering of `fib` at the entry's own
key. -/
def CacheInv (cache : List (String × String)) : Prop :=
  ∀ p ∈ cache,
    p.2 = sentinel ∨
      ∃ n : Int, 0 ≤ n ∧ n ≤ 40 ∧ p.1 = toString n ∧ p.2 = toString (fib n)

/-- Modelled from the spec: a "well-formed base-10 integer" string in the
sense of claim C4 — an optional sign followed by one or more decimal digits
and nothing else. -/
def specWellFormedBase10 (s : String) : Bool :=
  let cs :=
    match s.data with
    | '-' :: rest => rest
    | '+' :: rest => rest
    | cs => cs
  !cs.isEmpty && cs.all Char.isDigit

theorem fibLoop_eq_fibRec (k n : Nat) :
    fibLoop k (fibRec n) (fibRec (n + 1)) = fibRec (n + 1 + k) := by
  induction k generalizing n with
  | zero => simp [fibLoop]
  | succ k ih =>
      have hstep : fibRec n + fibRec (n + 1) = fibRec (n + 2) := rfl
      have : fibLoop (k + 1) (fibRec n) (fibRec (n + 1)) =
          fibLoop k (fibRec (n + 1)) (fibRec (n + 1 + 1)) := by
        simp [fibLoop, hstep]
      rw [this, ih (n + 1)]
      congr 1
      omega

theorem fib_eq_fibRec (i : Int) (h : 0 ≤ i) : fib i = fibRec i.toNat := by
  by_cases h2 : i < 2
  · have : i = 0 ∨ i = 1 := by omega
    rcases this with rfl | rfl <;> rfl
  · have key := fibLoop_eq_fibRec (i - 1).toNat 0
    have e0 : fibRec 0 = 1 := rfl
    have e1 : fibRec (0 + 1) = 1 := rfl
    rw [e0, e1] at key
    have hfib : fib i = fibLoop (i - 1).toNat 1 1 := by
      simp [fib, if_neg h2]
    rw [hfib, key]
    congr 1
    omega

/-- C1: for every integer `i` with `0 ≤ i ≤ 40`, the worker's `fib` returns
the value of the iterative recurrence seeded `1, 1` (stepping
`next = a + b` from `2` to `i`, returning `1` unchanged for `i < 2`); in
particular `fib 0 = 1`, `fib 1 = 1`, `fib 2 = 2`, `fib 5 = 8`,
`fib 10 = 89`, `fib 40 = 165580141`. -/
theorem fib_matches_iterative_recurrence (i : Int) (h0 : 0 ≤ i) (_h40 : i ≤ 40) :
    fib i = fibRec i.toNat ∧ fib 0 = 1 ∧ fib 1 = 1 ∧ fib 2 = 2 ∧ fib 5 = 8 ∧
      fib 10 = 89 ∧ fib 40 = 165580141 :=
  ⟨fib_eq_fibRec i h0, by decide, by decide, by decide, by decide, by decide, by decide⟩

/-- Witness for C1 at `i = 7`. -/
theorem fib_matches_iterative_recurrence_witness :
    fib 7 = fibRec (7 : Int).toNat ∧ fib 0 = 1 ∧ fib 1 = 1 ∧ fib 2 = 2 ∧
      fib 5 = 8 ∧ fib 10 = 89 ∧ fib 40 = 165580141 :=
  fib_matches_iterative_recurrence 7 (by decide) (by decide)

theorem postValues_missing (fail : Option (Fin 3)) (body : JSVal)
    (h : jsMissing body = true) :
    postValues fail body = ({ status := 400, error := some "Index is required" }, []) := by
  simp [postValues, h]

theorem postValues_malformed (fail : Option (Fin 3)) (body : JSVal)
    (hm : jsMissing body = false) (hp : parsedIntOf body = none) :
    postValues fail body =
      ({ status := 400, error := some "Index must be a valid number" }, []) := by
  simp [postValues, hm, hp]

theorem postValues_negative (fail : Option (Fin 3)) (body : JSVal) (n : Int)
    (hm : jsMissing body = false) (hp : parsedIntOf body = some n) (h : n < 0) :
    postValues fail body =
      ({ status := 400, error := some "Index must be non-negative" }, []) := by
  simp [postValues, hm, hp, h]

theorem postValues_toohigh (fail : Option (Fin 3)) (body : JSVal) (n : Int)
    (hm : jsMissing body = false) (hp : parsedIntOf body = some n) (h : 40 < n) :
    postValues fail body =
      ({ status := 422, error := some "Index too high (maximum: 40)" }, []) := by
  have h' : ¬ n < 0 := by omega
  simp [postValues, hm, hp, h', h]

theorem postValues_noninteger (fail : Option (Fin 3)) (body : JSVal) (n : Int)
    (hm : jsMissing body = false) (hp : parsedIntOf body = some n)
    (h0 : 0 ≤ n) (h40 : n ≤ 40) (hne : jsNumEq n (parsedFloatOf body) = false) :
    postValues fail body =
      ({ status := 400, error := some "Index must be an integer" }, []) := by
  have h1 : ¬ n < 0 := by omega
  have h2 : ¬ 40 < n := by omega
  simp [postValues, hm, hp, h1, h2, hne]

theorem postValues_ok (body : JSVal) (n : Int)
    (hm : jsMissing body = false) (hp : parsedIntOf body = some n)
    (h0 : 0 ≤ n) (h40 : n ≤ 40) (heq : jsNumEq n (parsedFloatOf body) = true) :
    postValues none body =
      ({ status := 201, working := true, index := some n },
       [Effect.cacheSet (toString n) "Calculating...",
        Effect.channelPub "insert" (toString n),
        Effect.ledgerInsert n]) := by
  have h1 : ¬ n < 0 := by omega
  have h2 : ¬ 40 < n := by omega
  simp [postValues, hm, hp, h1, h2, heq]

theorem postValues_store_error (body : JSVal) (n : Int) (i : Fin 3)
    (hm : jsMissing body = false) (hp : parsedIntOf body = some n)
    (h0 : 0 ≤ n) (h40 : n ≤ 40) (heq : jsNumEq n (parsedFloatOf body) = true) :
    postValues (some i) body =
      ({ status := 500, error := some "Internal server error while processing request" },
       ([Effect.cacheSet (toString n) "Calculating...",
         Effect.channelPub "insert" (toString n),
         Effect.ledgerInsert n]).take i.val) := by
  have h1 : ¬ n < 0 := by omega
  have h2 : ¬ 40 < n := by omega
  simp [postValues, hm, hp, h1, h2, heq]

/-- C2 counterexample: the claim says out-of-range input below `0` answers
`422`, but the handler answers `400` (`Index must be non-negative`) for
`index = -1`. -/
theorem below_range_not_422_counterexample :
    (postValues none (JSVal.num (-1))).1.status = 400 ∧
      ¬ (postValues none (JSVal.num (-1))).1.status = 422 := by decide

/-- C2 (amended): the `POST /values` response status is `201` with
`working: true` and the accepted index on success; `400` for missing,
malformed, non-integer, or negative input; `422` only for input above `40`;
`500` when a store operation throws. -/
theorem post_values_status_table (body : JSVal) (fail : Option (Fin 3)) (n : Int) :
    (jsMissing body = true → (postValues fail body).1.status = 400) ∧
    (jsMissing body = false → parsedIntOf body = none →
        (postValues fail body).1.status = 400) ∧
    (jsMissing body = false → parsedIntOf body = some n → n < 0 →
        (postValues fail body).1.status = 400) ∧
    (jsMissing body = false → parsedIntOf body = some n → 40 < n →
        (postValues fail body).1.status = 422) ∧
    (jsMissing body = false → parsedIntOf body = some n → 0 ≤ n → n ≤ 40 →
        jsNumEq n (parsedFloatOf body) = false →
        (postValues fail body).1.status = 400) ∧
    (jsMissing body = false → parsedIntOf body = some n → 0 ≤ n → n ≤ 40 →
        jsNumEq n (parsedFloatOf body) = true →
        (postValues none body).1 =
          { status := 201, working := true, index := some n }) ∧
    (∀ i : Fin 3, jsMissing body = false → parsedIntOf body = some n → 0 ≤ n → n ≤ 40 →
        jsNumEq n (parsedFloatOf body) = true →
        (postValues (some i) body).1.status = 500) := by
  refine ⟨?_, ?_, ?_, ?_, ?_, ?_, ?_⟩
  · intro hm
    rw [postValues_missing fail body hm]
  · intro hm hp
    rw [postValues_malformed fail body hm hp]
  · intro hm hp h
    rw [postValues_negative fail body n hm hp h]
  · intro hm hp h
    rw [postValues_toohigh fail body n hm hp h]
  · intro hm hp h0 h40 hne
    rw [postValues_noninteger fail body n hm hp h0 h40 hne]
  · intro hm hp h0 h40 heq
    rw [postValues_ok body n hm hp h0 h40 heq]
  · intro i hm hp h0 h40 heq
    rw [postValues_store_error body n i hm hp h0 h40 heq]

/-- Witness for C2 (amended) at `index = 41`. -/
theorem post_values_status_table_witness :
    (postValues none (JSVal.num 41)).1.status = 422 :=
  (post_values_status_table (JSVal.num 41) none 41).2.2.2.1 (by decide) (by decide) (by decide)

/-- C3: the submit-index checks fire in the fixed order missing, malformed,
negative, too-high, non-integer, and the first failing check alone fixes the
rejection message: each conjunct assumes only that the earlier checks
passed, so a later-failing property (like a fractional suffix) cannot change
the outcome. -/
theorem validation_order_first_failure_wins (body : JSVal) (fail : Option (Fin 3)) (n : Int) :
    (jsMissing body = true →
        (postValues fail body).1.error = some "Index is required") ∧
    (jsMissing body = false → parsedIntOf body = none →
        (postValues fail body).1.error = some "Index must be a valid number") ∧
    (jsMissing body = false → parsedIntOf body = some n → n < 0 →
        (postValues fail body).1.error = some "Index must be non-negative") ∧
    (jsMissing body = false → parsedIntOf body = some n → 0 ≤ n → 40 < n →
        (postValues fail body).1.error = some "Index too high (maximum: 40)") ∧
    (jsMissing body = false → parsedIntOf body = some n → 0 ≤ n → n ≤ 40 →
        jsNumEq n (parsedFloatOf body) = false →
        (postValues fail body).1.error = some "Index must be an integer") := by
  refine ⟨?_, ?_, ?_, ?_, ?_⟩
  · intro hm
    rw [postValues_missing fail body hm]
  · intro hm hp
    rw [postValues_malformed fail body hm hp]
  · intro hm hp h
    rw [postValues_negative fail body n hm hp h]
  · intro hm hp _ h
    rw [postValues_toohigh fail body n hm hp h]
  · intro hm hp h0 h40 hne
    rw [postValues_noninteger fail body n hm hp h0 h40 hne]

/-- Witness for C3 at `index = "-3.5"`: the value is both negative and
fractional, and the earlier negative check alone determines the rejection. -/
theorem validation_order_first_failure_wins_witness :
    (postValues none (JSVal.str "-3.5")).1.error = some "Index must be non-negative" :=
  (validation_order_first_failure_wins (JSVal.str "-3.5") none (-3)).2.2.1
    (by decide) (by decide) (by decide)

/-- C4 counterexample: `"5abc"` is not a well-formed base-10 integer, yet
the handler accepts it (status `201`, index `5`): `parseInt` reads the digit
prefix `5` and `parseFloat("5abc") = 5` passes the strict-equality check. -/
theorem junk_suffix_accepted_counterexample :
    specWellFormedBase10 "5abc" = false ∧
      (postValues none (JSVal.str "5abc")).1 =
        { status := 201, working := true, index := some 5 } := by decide

/-- C4 (amended): a submitted field whose `parseInt(·, 10)` parse is `NaN`
is rejected as a malformed-input error; but a string need not be a
well-formed base-10 integer to reach the accepted path — a digit prefix
followed by junk, such as `"5abc"`, is accepted as its numeric prefix. -/
theorem parse_failure_rejected_as_malformed (body : JSVal) (fail : Option (Fin 3))
    (hm : jsMissing body = false) (hp : parsedIntOf body = none) :
    (postValues fail body).1 =
      { status := 400, error := some "Index must be a valid number" } := by
  rw [postValues_malformed fail body hm hp]

/-- Witness for C4 (amended) at `index = "abc"`. -/
theorem parse_failure_rejected_as_malformed_witness :
    (postValues none (JSVal.str "abc")).1 =
      { status := 400, error := some "Index must be a valid number" } :=
  parse_failure_rejected_as_malformed (JSVal.str "abc") none (by decide) (by decide)

/-- C5 counterexample: for `"3.00000000000000001"` the truncated base-10
parse is `3`, inside `[0, 40]`, and the exact unrounded numeric value
`3 + 10 ^ -17` is not an integer (its reduced denominator is `10 ^ 17`);
yet the fraction sits far below the double's resolution at `3` (half-ULP
`2 ^ -52`), so `parseFloat` returns exactly `3.0`, the strict-equality
check passes, and the request is accepted `201` with index `3` — silently
truncated, not rejected as the claim demands. -/
theorem subresolution_fraction_accepted_counterexample :
    parseIntJS "3.00000000000000001" = some 3 ∧
      parseFloatExact "3.00000000000000001" =
        some (Rat.divInt 300000000000000001 100000000000000000) ∧
      (Rat.divInt 300000000000000001 100000000000000000).den ≠ 1 ∧
      parseFloatJS "3.00000000000000001" = some (Rat.divInt 3 1) ∧
      (postValues none (JSVal.str "3.00000000000000001")).1 =
        { status := 201, working := true, index := some 3 } := by decide

/-- C5 (amended): an input string whose truncated base-10 parse lies in
`[0, 40]` but whose `parseFloat` value — the exact literal value rounded to
the nearest binary64 double — differs from the truncated parse is rejected
as a non-integer error (so `"3.5"` is rejected, not truncated); an input
whose fractional part lies below the double's resolution, such as
`"3.00000000000000001"`, rounds to the integer itself and is silently
accepted. -/
theorem fractional_input_rejected_noninteger (s : String) (fail : Option (Fin 3))
    (n : Int) (q : ℚ) (hp : parseIntJS s = some n) (h0 : 0 ≤ n) (h40 : n ≤ 40)
    (hf : parseFloatJS s = some q) (hne : (n : ℚ) ≠ q) :
    (postValues fail (JSVal.str s)).1 =
      { status := 400, error := some "Index must be an integer" } := by
  have hs : s ≠ "" := by
    intro h
    rw [h] at hp
    exact Option.noConfusion hp
  have hm : jsMissing (JSVal.str s) = false := by
    simp [jsMissing, hs]
  have hne' : jsNumEq n (parsedFloatOf (JSVal.str s)) = false := by
    simp [jsNumEq, parsedFloatOf, hf, hne]
  rw [postValues_noninteger fail (JSVal.str s) n hm hp h0 h40 hne']

/-- Witness for C5 at `index = "3.5"` (`parseInt` gives `3`, `parseFloat`
gives `7/2`). -/
theorem fractional_input_rejected_noninteger_witness :
    (postValues none (JSVal.str "3.5")).1 =
      { status := 400, error := some "Index must be an integer" } :=
  fractional_input_rejected_noninteger "3.5" none 3 (Rat.divInt 7 2)
    (by decide) (by decide) (by decide) (by decide) (by decide)

/-- C6: a parsed value above `40` is rejected with status `422`, a parsed
value below `0` with status `400`, and the two statuses are distinct, so a
client can tell too-large from too-small. -/
theorem range_errors_distinct_statuses (body : JSVal) (fail : Option (Fin 3)) (n : Int)
    (hm : jsMissing body = false) (hp : parsedIntOf body = some n) :
    (40 < n → (postValues fail body).1.status = 422) ∧
      (n < 0 → (postValues fail body).1.status = 400) ∧ (422 : Nat) ≠ 400 := by
  refine ⟨?_, ?_, by decide⟩
  · intro h
    rw [postValues_toohigh fail body n hm hp h]
  · intro h
    rw [postValues_negative fail body n hm hp h]

/-- Witness for C6 at `index = 41` and `index = -1`. -/
theorem range_errors_distinct_statuses_witness :
    (postValues none (JSVal.num 41)).1.status = 422 ∧
      (postValues none (JSVal.num (-1))).1.status = 400 :=
  ⟨(range_errors_distinct_statuses (JSVal.num 41) none 41 (by decide) (by decide)).1
      (by decide),
   (range_errors_distinct_statuses (JSVal.num (-1)) none (-1) (by decide) (by decide)).2.1
      (by decide)⟩

theorem postValues_cases (fail : Option (Fin 3)) (body : JSVal) :
    (postValues fail body).2 = [] ∨
      (postValues fail body).1.status = 201 ∨ (postValues fail body).1.status = 500 := by
  unfold postValues
  repeat' split
  all_goals simp

/-- C7: a submission rejected by validation (status 400 or 422) produces no
store side effect: the effect list is empty and every store state is left
exactly as it was. -/
theorem validation_failure_no_side_effects (body : JSVal) (fail : Option (Fin 3))
    (h : (postValues fail body).1.status = 400 ∨ (postValues fail body).1.status = 422) :
    (postValues fail body).2 = [] ∧
      ∀ s : StoreState, runEffects s (postValues fail body).2 = s := by
  rcases postValues_cases fail body with he | hs
  · refine ⟨he, fun s => ?_⟩
    rw [he]
    rfl
  · exfalso
    rcases h with h | h <;> rcases hs with hs | hs <;> omega

/-- Witness for C7 at `index = -1` and the empty store state. -/
theorem validation_failure_no_side_effects_witness :
    (postValues none (JSVal.num (-1))).2 = [] ∧
      runEffects ⟨[], [], []⟩ (postValues none (JSVal.num (-1))).2 = ⟨[], [], []⟩ :=
  ⟨(validation_failure_no_side_effects (JSVal.num (-1)) none (Or.inl (by decide))).1,
   (validation_failure_no_side_effects (JSVal.num (-1)) none (Or.inl (by decide))).2
      ⟨[], [], []⟩⟩

theorem hset_lookup (c : List (String × String)) (k v : String) :
    (hset c k v).lookup k = some v := by
  induction c with
  | nil => simp [hset]
  | cons p rest ih =>
      obtain ⟨a, b⟩ := p
      by_cases h : a = k
      · subst h
        simp [hset]
      · have hbeq : (k == a) = false := beq_eq_false_iff_ne.mpr (Ne.symm h)
        simp [hset, h, List.lookup, hbeq, ih]

theorem hset_keys_count (c : List (String × String)) (k v : String) :
    ((hset c k v).map Prod.fst).count k = max 1 ((c.map Prod.fst).count k) := by
  induction c with
  | nil => simp [hset]
  | cons p rest ih =>
      obtain ⟨a, b⟩ := p
      by_cases h : a = k
      · subst h
        simp [hset]
      · simp [hset, h, ih, Ne.symm h]

theorem ledger_insert_count (l : List Int) (n : Int) (h : l.count n ≤ 1) :
    (if n ∈ l then l else l ++ [n]).count n = 1 := by
  by_cases hc : n ∈ l
  · rw [if_pos hc]
    have hpos : 0 < l.count n := List.count_pos_iff.mpr hc
    omega
  · rw [if_neg hc]
    have h0 : l.count n = 0 := List.count_eq_zero.mpr hc
    simp [List.count_append, h0]

/-- C8: submitting the same valid index twice leaves exactly one Ledger
Entry for that number (the insert is idempotent by value), and the Result
Cache holds exactly one entry for that index, last written to the
placeholder — never duplicated. -/
theorem resubmit_idempotent (s : StoreState) (n : Int) (h0 : 0 ≤ n) (h40 : n ≤ 40)
    (hl : s.ledger.count n ≤ 1)
    (hc : (s.cache.map Prod.fst).count (toString n) ≤ 1) :
    ((runEffects (runEffects s (postValues none (JSVal.num n)).2)
        (postValues none (JSVal.num n)).2).ledger.count n = 1) ∧
    (((runEffects (runEffects s (postValues none (JSVal.num n)).2)
        (postValues none (JSVal.num n)).2).cache.map Prod.fst).count (toString n) = 1) ∧
    ((runEffects (runEffects s (postValues none (JSVal.num n)).2)
        (postValues none (JSVal.num n)).2).cache.lookup (toString n) =
      some "Calculating...") := by
  have hm : jsMissing (JSVal.num n) = false := rfl
  have hp : parsedIntOf (JSVal.num n) = some n := rfl
  have heq : jsNumEq n (parsedFloatOf (JSVal.num n)) = true := by
    simp [jsNumEq, parsedFloatOf]
  rw [postValues_ok (JSVal.num n) n hm hp h0 h40 heq]
  simp only [runEffects, List.foldl, applyEffect]
  refine ⟨?_, ?_, ?_⟩
  · have l1 := ledger_insert_count s.ledger n hl
    have l2 := ledger_insert_count (if n ∈ s.ledger then s.ledger else s.ledger ++ [n]) n
      (by omega)
    exact l2
  · rw [hset_keys_count, hset_keys_count]
    omega
  · exact hset_lookup _ _ _

/-- Witness for C8 at `index = 5` and the empty store state. -/
theorem resubmit_idempotent_witness :
    ((runEffects (runEffects ⟨[], [], []⟩ (postValues none (JSVal.num 5)).2)
        (postValues none (JSVal.num 5)).2).ledger.count 5 = 1) ∧
    (((runEffects (runEffects ⟨[], [], []⟩ (postValues none (JSVal.num 5)).2)
        (postValues none (JSVal.num 5)).2).cache.map Prod.fst).count (toString (5 : Int)) = 1) ∧
    ((runEffects (runEffects ⟨[], [], []⟩ (postValues none (JSVal.num 5)).2)
        (postValues none (JSVal.num 5)).2).cache.lookup (toString (5 : Int)) =
      some "Calculating...") :=
  resubmit_idempotent ⟨[], [], []⟩ 5 (by decide) (by decide) (by decide) (by decide)

theorem workerHandle_invalid (b : Bool) (cache : List (String × String)) (m : String)
    (h : parseIntJS m = none ∨ (∃ n : Int, parseIntJS m = some n ∧ (n < 0 ∨ 40 < n))) :
    workerHandle b cache m = cache := by
  rcases h with h | ⟨n, hn, hr⟩
  · simp [workerHandle, workerBody, h]
  · have hb : (decide (n < 0) || decide (n > 40)) = true := by
      rcases hr with hr | hr <;> simp [hr]
    simp [workerHandle, workerBody, hn, hb]

theorem workerHandle_cache_error (cache : List (String × String)) (m : String) :
    workerHandle false cache m = cache := by
  cases hpm : parseIntJS m with
  | none => simp [workerHandle, workerBody, hpm]
  | some n =>
      by_cases hb : (decide (n < 0) || decide (n > 40)) = true
      · simp [workerHandle, workerBody, hpm, hb]
      · simp [workerHandle, workerBody, hpm, hb]

/-- C9: a delivered message that does not parse as an integer, or whose
value lies outside `[0, 40]`, is discarded with no cache write; a thrown
store error is caught, leaving the cache unchanged; and in all cases the
subscription loop goes on to process the remaining messages. -/
theorem worker_discards_invalid_and_survives (ok : Bool)
    (cache : List (String × String)) (m : String) (msgs : List String) :
    ((parseIntJS m = none ∨ (∃ n : Int, parseIntJS m = some n ∧ (n < 0 ∨ 40 < n))) →
        workerHandle ok cache m = cache ∧
          workerProcess ok cache (m :: msgs) = workerProcess ok cache msgs) ∧
    workerHandle false cache m = cache ∧
    workerProcess ok cache (m :: msgs) = workerProcess ok (workerHandle ok cache m) msgs := by
  have hcons : workerProcess ok cache (m :: msgs) =
      workerProcess ok (workerHandle ok cache m) msgs := rfl
  refine ⟨fun h => ⟨workerHandle_invalid ok cache m h, ?_⟩,
          workerHandle_cache_error cache m, hcons⟩
  rw [hcons, workerHandle_invalid ok cache m h]

/-- Witness for C9: the malformed message `"abc"` writes nothing, and the
following message is processed as if `"abc"` had never arrived. -/
theorem worker_discards_invalid_and_survives_witness :
    workerHandle true [] "abc" = [] ∧
      workerProcess true [] ["abc", "10"] = workerProcess true [] ["10"] :=
  (worker_discards_invalid_and_survives true [] "abc" ["10"]).1 (Or.inl (by decide))

theorem hset_mem (c : List (String × String)) (k v : String) (p : String × String)
    (hp : p ∈ hset c k v) : p = (k, v) ∨ p ∈ c := by
  induction c with
  | nil => simpa [hset] using hp
  | cons q rest ih =>
      obtain ⟨a, b⟩ := q
      by_cases h : a = k
      · rw [hset, if_pos h] at hp
        rcases List.mem_cons.mp hp with rfl | hp'
        · exact Or.inl rfl
        · exact Or.inr (List.mem_cons_of_mem _ hp')
      · rw [hset, if_neg h] at hp
        rcases List.mem_cons.mp hp with rfl | hp'
        · exact Or.inr (List.mem_cons_self _ _)
        · rcases ih hp' with h1 | h1
          · exact Or.inl h1
          · exact Or.inr (List.mem_cons_of_mem _ h1)

theorem cacheInv_hset (c : List (String × String)) (k v : String)
    (hkv : v = sentinel ∨
      ∃ n : Int, 0 ≤ n ∧ n ≤ 40 ∧ k = toString n ∧ v = toString (fib n))
    (h : CacheInv c) : CacheInv (hset c k v) := by
  intro p hp
  rcases hset_mem c k v p hp with rfl | hp'
  · simpa using hkv
  · exact h p hp'

theorem postValues_preserves_cacheInv (fail : Option (Fin 3)) (body : JSVal)
    (s : StoreState) (h : CacheInv s.cache) :
    CacheInv (runEffects s (postValues fail body).2).cache := by
  by_cases hm : jsMissing body = true
  · rw [postValues_missing fail body hm]
    exact h
  · have hm' : jsMissing body = false := by simpa using hm
    cases hp : parsedIntOf body with
    | none =>
        rw [postValues_malformed fail body hm' hp]
        exact h
    | some n =>
        by_cases h1 : n < 0
        · rw [postValues_negative fail body n hm' hp h1]
          exact h
        · by_cases h2 : 40 < n
          · rw [postValues_toohigh fail body n hm' hp h2]
            exact h
          · have h0 : 0 ≤ n := by omega
            have h40 : n ≤ 40 := by omega
            by_cases heq : jsNumEq n (parsedFloatOf body) = true
            · cases fail with
              | none =>
                  rw [postValues_ok body n hm' hp h0 h40 heq]
                  simp only [runEffects, List.foldl, applyEffect]
                  exact cacheInv_hset _ _ _ (Or.inl rfl) h
              | some i =>
                  rw [postValues_store_error body n i hm' hp h0 h40 heq]
                  fin_cases i
                  · exact h
                  · simp only [List.take, runEffects, List.foldl, applyEffect]
                    exact cacheInv_hset _ _ _ (Or.inl rfl) h
                  · simp only [List.take, runEffects, List.foldl, applyEffect]
                    exact cacheInv_hset _ _ _ (Or.inl rfl) h
            · have hne : jsNumEq n (parsedFloatOf body) = false := by simpa using heq
              rw [postValues_noninteger fail body n hm' hp h0 h40 hne]
              exact h

theorem workerHandle_preserves_cacheInv (ok : Bool) (cache : List (String × String))
    (m : String) (h : CacheInv cache) : CacheInv (workerHandle ok cache m) := by
  cases hpm : parseIntJS m with
  | none => simpa [workerHandle, workerBody, hpm] using h
  | some n =>
      by_cases hb : (decide (n < 0) || decide (n > 40)) = true
      · simpa [workerHandle, workerBody, hpm, hb] using h
      · cases ok with
        | false => simpa [workerHandle, workerBody, hpm, hb] using h
        | true =>
            have hb' : ¬ n < 0 ∧ ¬ n > 40 := by
              constructor <;> intro hx <;> exact hb (by simp [hx])
            have hw : workerHandle true cache m =
                hset cache (toString n) (toString (fib n)) := by
              simp [workerHandle, workerBody, hpm, hb]
            rw [hw]
            exact cacheInv_hset _ _ _
              (Or.inr ⟨n, by omega, by omega, rfl, rfl⟩) h

/-- C10: every value the gateway or the worker ever writes into the Result
Cache is either the exact placeholder string `"Calculating..."` or the
decimal rendering of `fib` at the entry's own key — both writers preserve
this invariant, and no in-range `fib` string collides with the placeholder,
so a reader can tell pending from completed entries. -/
theorem cache_values_sentinel_or_fib :
    (∀ (fail : Option (Fin 3)) (body : JSVal) (s : StoreState),
        CacheInv s.cache → CacheInv (runEffects s (postValues fail body).2).cache) ∧
    (∀ (ok : Bool) (cache : List (String × String)) (m : String),
        CacheInv cache → CacheInv (workerHandle ok cache m)) ∧
    (∀ k : Nat, k < 41 → toString (fib (k : Int)) ≠ sentinel) :=
  ⟨fun fail body s h => postValues_preserves_cacheInv fail body s h,
   fun ok cache m h => workerHandle_preserves_cacheInv ok cache m h,
   by decide⟩

/-- Witness for C10: the invariant holds after a submission into the empty
store, after the worker overwrites a placeholder, and `fib 3`'s string
differs from the placeholder. -/
theorem cache_values_sentinel_or_fib_witness :
    CacheInv ((runEffects ⟨[], [], []⟩ (postValues none (JSVal.num 5)).2).cache) ∧
      CacheInv (workerHandle true [("5", "Calculating...")] "5") ∧
      toString (fib ((3 : Nat) : Int)) ≠ sentinel := by
  refine ⟨cache_values_sentinel_or_fib.1 none (JSVal.num 5) ⟨[], [], []⟩ ?_,
          cache_values_sentinel_or_fib.2.1 true [("5", "Calculating...")] "5" ?_,
          cache_values_sentinel_or_fib.2.2 3 (by decide)⟩
  · rintro p hp
    cases hp
  · rintro p hp
    rcases List.mem_singleton.mp hp with rfl
    exact Or.inl rfl

end FibService
